import Mathlib

/-!
Verification development for the website-cloning core (`cloneWebsite` and its
helpers).  The JavaScript source is shallowly embedded: pure string and path
manipulation is translated to executable Lean functions; network and
filesystem effects are abstracted as oracle functions carried in an
environment record, and JavaScript exceptions are modelled with `Except`.
-/

set_option maxHeartbeats 1600000
set_option maxRecDepth 4000

namespace Cloner

/-- Splits a character list at every occurrence of the separator character;
models JavaScript `String.prototype.split` with a one-character separator
(so `"a,,b".split(",") = ["a","","b"]` and `"".split(",") = [""]`). -/
def splitCharAux (sep : Char) : List Char → List Char → List String
  | [], acc => [String.mk acc.reverse]
  | c :: rest, acc =>
    if c = sep then String.mk acc.reverse :: splitCharAux sep rest []
    else splitCharAux sep rest (c :: acc)

/-- String-level wrapper for `splitCharAux`. -/
def splitChar (sep : Char) (s : String) : List String :=
  splitCharAux sep s.data []

/-- Boolean string-prefix test on the underlying character lists; models
JavaScript `String.prototype.startsWith`. -/
def strStarts (s pre : String) : Bool :=
  pre.data.isPrefixOf s.data

/-- Boolean string-suffix test; models `String.prototype.endsWith`. -/
def strEnds (s suf : String) : Bool :=
  suf.data.isSuffixOf s.data

/-- Lower-cases every character; models `String.prototype.toLowerCase` for
the ASCII range that matters here. -/
def lowerStr (s : String) : String :=
  String.mk (s.data.map Char.toLower)

/-- Characters replaced by `_` in `safeFilename`
(the regex `/[:?#<>\\|*"]/g`). -/
def isUnsafeChar (c : Char) : Bool :=
  c = ':' || c = '?' || c = '#' || c = '<' || c = '>' || c = '\\' || c = '|' || c = '*' || c = '"'

/-- `safeFilename(p)`: replaces the filesystem-hostile characters
`: ? # < > \ | * "` by underscores (part_000 lines 36-38). -/
def safeFilename (p : String) : String :=
  String.mk (p.data.map (fun c => if isUnsafeChar c then '_' else c))

/-- Removes a single leading slash; models `p.replace(/^\//, "")`. -/
def stripSlash (p : String) : String :=
  match p.data with
  | '/' :: rest => String.mk rest
  | _ => p

/-- Normalises a list of path segments of an absolute path: empty and `.`
segments vanish, `..` pops the previous segment (and is dropped at the
root), as Node's `path.normalize` does for absolute paths. -/
def normStack (acc : List String) : List String → List String
  | [] => acc
  | s :: rest =>
    if s = "" || s = "." then normStack acc rest
    else if s = ".." then normStack acc.dropLast rest
    else normStack (acc ++ [s]) rest

/-- Renders normalised segments back into an absolute path string. -/
def renderAbs (segs : List String) : String :=
  "/" ++ String.intercalate "/" segs

/-- Models Node `path.resolve` applied to an already-absolute path:
split on `/`, normalise `.`/`..`/empty segments, re-render. -/
def pathResolve (p : String) : String :=
  renderAbs (normStack [] (splitChar '/' p))

/-- Models Node `path.join a b` for an absolute `a`: concatenation with a
separator followed by normalisation. -/
def pathJoin (a b : String) : String :=
  pathResolve (a ++ "/" ++ b)

/-- Drops the final segment of an absolute path; models Node
`path.dirname`. -/
def pathDirname (p : String) : String :=
  renderAbs (normStack [] (splitChar '/' p)).dropLast

/-- Longest-common-prefix remainder of two segment lists. -/
def dropCommon : List String → List String → List String × List String
  | a :: as_, b :: bs => if a = b then dropCommon as_ bs else (a :: as_, b :: bs)
  | as_, bs => (as_, bs)

/-- Models Node `path.relative from to` for absolute arguments, already
joined with `/` as the code does with `.split(path.sep).join("/")`. -/
def pathRelative (fromP toP : String) : String :=
  let fa := normStack [] (splitChar '/' fromP)
  let fb := normStack [] (splitChar '/' toP)
  let (ra, rb) := dropCommon fa fb
  String.intercalate "/" (ra.map (fun _ => "..") ++ rb)

/-- Descendant test used to state the path-traversal claim: `p` is the root
itself or lies strictly below it (a real path-separator boundary, unlike the
plain string `startsWith` the code uses). -/
def isWithin (root p : String) : Bool :=
  pathResolve p = pathResolve root || strStarts (pathResolve p) (pathResolve root ++ "/")

/-- Outcome of one `downloadAsset` call (part_000 lines 40-63): a success
records the written path and body, a failure the error message.  One value
per attempted URL; the function never throws. -/
inductive Outcome where
  | ok (url outPath body : String)
  | fail (url err : String)
deriving DecidableEq, Repr

/-- The URL of an outcome. -/
def Outcome.url : Outcome → String
  | .ok u _ _ => u
  | .fail u _ => u

/-- Whether an outcome is a success (`r.ok` in the source). -/
def Outcome.isOk : Outcome → Bool
  | .ok _ _ _ => true
  | .fail _ _ => false

/-- One parsed element of the document: tag name plus attribute list.
Models what cheerio exposes of an element to this code. -/
structure Elem where
  tag : String
  attrs : List (String × String)
deriving DecidableEq, Repr

/-- Environment of oracle functions abstracting network, filesystem and URL
parsing.  `resolve v` models `new URL(v, base).href` for the page's base
URL (`none` = the constructor throws); `resolveIn cssUrl ref` models
`new URL(ref, cssUrl).href`; `fetch u` models a GET returning the body on
2xx and `none` on any network failure; `pathname u` models
`new URL(u).pathname` (note: for opaque-path URLs such as `data:` the path
is kept verbatim, so it need not start with `/` and may contain `..`);
`parseUrl` models `new URL(urlStr)` returning the hostname; `fetchRoot`
is the initial page GET already parsed by cheerio. -/
structure CloneEnv where
  parseUrl : String → Option String
  cwd : String
  now : String
  mkdirOk : Bool
  fetchRoot : Option (List Elem)
  resolve : String → Option String
  resolveIn : String → String → Option String
  fetch : String → Option String
  pathname : String → Option String

/-- `downloadAsset(urlStr, outBaseDir)` (part_000 lines 40-63): fetch, then
compute `rel = safeFilename(pathname without its leading slash)`, join it
under the base directory (`index.html` when empty), and gate the write on
`path.resolve(outPath).startsWith(path.resolve(outBaseDir))`; every error
is caught and returned as a failure outcome. -/
def downloadAsset (env : CloneEnv) (outBase url : String) : Outcome :=
  match env.fetch url with
  | none => .fail url "network error"
  | some body =>
    match env.pathname url with
    | none => .fail url "invalid URL"
    | some pn =>
      let rel := safeFilename (stripSlash pn)
      let outPath := pathJoin outBase (if rel = "" then "index.html" else rel)
      if strStarts (pathResolve outPath) (pathResolve outBase) then
        .ok url outPath body
      else
        .fail url ("Path traversal attempt: " ++ url)

/-- Concrete environment for evaluating `downloadAsset` on the traversal
probe: the fetch succeeds (axios serves `data:` URLs) and the pathname is
exactly what `new URL` reports for this opaque-path URL. -/
def envC1 : CloneEnv :=
  { parseUrl := fun _ => none
    cwd := "/w"
    now := "1"
    mkdirOk := true
    fetchRoot := none
    resolve := fun _ => none
    resolveIn := fun _ _ => none
    fetch := fun _ => some "xx"
    pathname := fun u =>
      if u = "data:../assets_evil/pwn;base64,eHg=" then some "../assets_evil/pwn;base64,eHg="
      else none }

/-- Association-list lookup; models reading `obj[key]` on a plain object
whose keys were only ever written through `setA`. -/
def lookupA : List (String × String) → String → Option String
  | [], _ => none
  | (k, v) :: t, u => if k = u then some v else lookupA t u

/-- Association-list write with overwrite; models `obj[key] = value`
(insertion order preserved, keys unique). -/
def setA : List (String × String) → String → String → List (String × String)
  | [], k, v => [(k, v)]
  | (k0, v0) :: t, k, v => if k0 = k then (k0, v) :: t else (k0, v0) :: setA t k v

/-- JavaScript truthiness of `obj[key]` for string values: `undefined` and
the empty string are both falsy.  Returns the value only when it is truthy,
which is exactly how the source consumes `urlToLocal[u]`. -/
def jsTruthyGet (m : List (String × String)) (u : String) : Option String :=
  match lookupA m u with
  | none => none
  | some v => if v = "" then none else some v

/-- Trims leading and trailing whitespace; models
`String.prototype.trim`. -/
def trimStr (s : String) : String :=
  String.mk (((s.data.dropWhile Char.isWhitespace).reverse.dropWhile Char.isWhitespace).reverse)

/-- Splits a trimmed string on runs of whitespace; models
`part.trim().split(/\s+/)` (so `"" ↦ [""]`, `"a  b" ↦ ["a","b"]`). -/
def wsSplitGo : List Char → List Char → List String
  | [], acc => [String.mk acc.reverse]
  | c :: rest, acc =>
    if c.isWhitespace then
      if acc.isEmpty then wsSplitGo rest []
      else String.mk acc.reverse :: wsSplitGo rest []
    else wsSplitGo rest (c :: acc)

/-- String-level wrapper for `wsSplitGo`. -/
def wsSplit (s : String) : List String :=
  wsSplitGo s.data []

/-- Attribute read: first binding of the name, `none` when absent; models
cheerio `$(el).attr(name)` returning `undefined` for a missing
attribute. -/
def getAttr (el : Elem) (a : String) : Option String :=
  lookupA el.attrs a

/-- Attribute write with overwrite-or-append; models
`$(el).attr(name, value)`. -/
def setAttr (el : Elem) (a v : String) : Elem :=
  { el with attrs := setA el.attrs a v }

/-- JavaScript `x || d` for an optional attribute value: `undefined` and
`""` both fall back to the default. -/
def falsyD (x : Option String) (d : String) : String :=
  match x with
  | none => d
  | some v => if v = "" then d else v

/-- The placeholder image URL built for an element from its declared
`width`/`height` attributes, defaulting to 400 by 300 (part_000
lines 227-229). -/
def placeholderUrl (el : Elem) : String :=
  "https://placehold.co/" ++ falsyD (getAttr el "width") "400" ++ "x"
    ++ falsyD (getAttr el "height") "300" ++ "/EEE/31343C?text=Failed+to+Load"

/-- Rewrites one `srcset` value (part_000 lines 215-220): split on commas,
trim each entry, split it on whitespace, replace the first token by its
mapped local path when the map has a truthy entry for its resolution
(`urlToLocal[...] || url`), rejoin with single spaces and `", "`.  A token
whose resolution throws makes the whole rewrite throw (there is no
try/catch inside the entry loop), modelled by `Except.error`. -/
def srcsetRewriteE (resolve : String → Option String) (m : List (String × String))
    (v : String) : Except Unit String := do
  let parts ← (splitChar ',' v).mapM (fun part =>
    match wsSplit (trimStr part) with
    | [] => pure ""
    | u :: ds =>
      match resolve u with
      | none => Except.error ()
      | some abs => pure (String.intercalate " " ((jsTruthyGet m abs).getD u :: ds)))
  pure (String.intercalate ", " parts)

/-- The `srcset` rewrite as the specification sentence describes it: each
comma-separated entry is split on whitespace, its URL token is replaced by
the mapped local path when a mapping exists and left unchanged when
unmapped, and descriptor tokens are rejoined verbatim. -/
def srcsetSpec (resolve : String → Option String) (m : List (String × String))
    (v : String) : String :=
  String.intercalate ", " ((splitChar ',' v).map (fun part =>
    match wsSplit (trimStr part) with
    | [] => ""
    | u :: ds =>
      String.intercalate " "
        ((match resolve u with
          | none => u
          | some abs => (jsTruthyGet m abs).getD u) :: ds)))

/-- The body of `mapAttr` for one matched element (part_000 lines 209-236):
a missing or empty attribute is skipped; `srcset` goes through
`srcsetRewriteE` (a throw leaves the element untouched); otherwise the
value is resolved (a throw leaves the element untouched), a truthy map
entry replaces the attribute value, and an unmapped `src`/`poster` value
makes the code write the placeholder into the `src` attribute (the
attribute name is hard-coded in the source). -/
def mapAttrEl (resolve : String → Option String) (m : List (String × String))
    (a : String) (el : Elem) : Elem :=
  match getAttr el a with
  | none => el
  | some v =>
    if v = "" then el
    else if a = "srcset" then
      match srcsetRewriteE resolve m v with
      | .ok ns => setAttr el "srcset" ns
      | .error _ => el
    else
      match resolve v with
      | none => el
      | some abs =>
        match jsTruthyGet m abs with
        | some lp => setAttr el a lp
        | none =>
          if a = "src" || a = "poster" then setAttr el "src" (placeholderUrl el)
          else el

/-- The fixed (tag, attribute) catalogue `assetSelectors` (part_000
lines 90-101). -/
def assetSelectors : List (String × String) :=
  [("link", "href"), ("script", "src"), ("img", "src"), ("img", "srcset"),
   ("source", "src"), ("audio", "src"), ("video", "src"), ("video", "poster"),
   ("meta", "content"), ("object", "data")]

/-- One full HTML-rewrite pass: `mapAttr` applied for every catalogue pair
in order, each pass visiting every matching element (part_000
lines 238-240). -/
def rewriteDoc (resolve : String → Option String) (m : List (String × String))
    (doc : List Elem) : List Elem :=
  assetSelectors.foldl (fun d (p : String × String) =>
    d.map (fun el => if el.tag = p.1 then mapAttrEl resolve m p.2 el else el)) doc

/-- Set-insertion into the insertion-ordered view of the `assetSet`
JavaScript `Set`. -/
def dedupAdd (acc : List String) (u : String) : List String :=
  if u ∈ acc then acc else acc ++ [u]

/-- Discovery of the URL tokens of one `srcset` value (part_000
lines 108-112): split on commas, trim, take the first whitespace-separated
token, skip empty tokens, resolve and add.  The resolution is NOT wrapped
in a try/catch in the source, so a token that fails to parse throws,
modelled by `Except.error`. -/
def discoverSrcset (resolve : String → Option String) (acc : List String) (v : String) :
    Except Unit (List String) :=
  (splitChar ',' v).foldlM (fun acc part =>
    match wsSplit (trimStr part) with
    | [] => pure acc
    | u :: _ =>
      if u = "" then pure acc
      else
        match resolve u with
        | none => Except.error ()
        | some abs => pure (dedupAdd acc abs)) acc

/-- Discovery of one attribute value (part_000 lines 108-119): `srcset`
goes through `discoverSrcset`; any other value is resolved inside a
try/catch, so a parse failure is logged and skipped. -/
def discoverValue (resolve : String → Option String) (acc : List String)
    (a v : String) : Except Unit (List String) :=
  if a = "srcset" then discoverSrcset resolve acc v
  else
    match resolve v with
    | none => pure acc
    | some abs => pure (dedupAdd acc abs)

/-- The full discovery pass (part_000 lines 103-121): for every catalogue
pair in order, every matching element with a truthy attribute value
contributes its references to the deduplicated set. -/
def discover (resolve : String → Option String) (doc : List Elem) :
    Except Unit (List String) :=
  assetSelectors.foldlM (fun acc p =>
    doc.foldlM (fun acc el =>
      if el.tag = p.1 then
        match getAttr el p.2 with
        | none => pure acc
        | some v => if v = "" then pure acc else discoverValue resolve acc p.2 v
      else pure acc) acc) []

/-- Splits the URL list into the successive `slice(i, i + 5)` batches of
the download loop (part_000 lines 130-143). -/
def chunk5 : List String → List (List String)
  | [] => []
  | a :: b :: c :: d :: e :: rest => [a, b, c, d, e] :: chunk5 rest
  | [a] => [[a]]
  | [a, b] => [[a, b]]
  | [a, b, c] => [[a, b, c]]
  | [a, b, c, d] => [[a, b, c, d]]

/-- The batch downloader: each batch is mapped through `downloadAsset`
(`Promise.all` keeps batch-internal order) and batches are concatenated in
order into `downloadResults`. -/
def batchDownload (env : CloneEnv) (outBase : String) (urls : List String) :
    List Outcome :=
  ((chunk5 urls).map (fun b => b.map (downloadAsset env outBase))).flatten

/-- One step of the result-processing loop (part_000 lines 146-153): a
success binds its URL to `path.relative(outDir, outPath)` with forward
slashes, a failure only logs. -/
def buildStep (outDir : String) (m : List (String × String)) (o : Outcome) :
    List (String × String) :=
  match o with
  | .ok u p _ => setA m u (pathRelative outDir p)
  | .fail _ _ => m

/-- Builds the initial `urlToLocal` map from the download results. -/
def buildMap (outDir : String) (outcomes : List Outcome) : List (String × String) :=
  outcomes.foldl (buildStep outDir) []

/-- Character class of the regex body `[^'")]+`. -/
def isRefChar (c : Char) : Bool :=
  !(c = '\'' || c = '"' || c = ')')

/-- Structural split of a character list into its maximal leading run of
`isRefChar` characters and the remainder. -/
def takeDropRef : List Char → List Char × List Char
  | [] => ([], [])
  | c :: rest =>
    if isRefChar c then
      let p := takeDropRef rest
      (c :: p.1, p.2)
    else ([], c :: rest)

/-- Matches the remainder of `url\((?:'|"|)([^'")]+)(?:'|"|)\)` after the
opening `url(` and an optional already-consumed quote (`opened` holds the
consumed characters): a non-empty body, then either `)` or one quote
followed by `)`.  Returns the full matched text, the captured group and
the rest of the input. -/
def cssMatchBody (opened rest1 : List Char) :
    Option (List Char × List Char × List Char) :=
  match takeDropRef rest1 with
  | (body, rest2) =>
    if body.isEmpty then none
    else
      match rest2 with
      | ')' :: r3 => some (opened ++ body ++ [')'], body, r3)
      | c :: ')' :: r3 =>
        if c = '\'' || c = '"' then
          some (opened ++ body ++ [c, ')'], body, r3)
        else none
      | _ => none

/-- Tries the CSS url-regex at the head of the input; mirrors how the
JavaScript engine matches `url\((?:'|"|)([^'")]+)(?:'|"|)\)` at one
position (the optional-quote alternations cannot backtrack into a
different successful match, so the match is deterministic). -/
def cssTryMatch : List Char → Option (List Char × List Char × List Char)
  | 'u' :: 'r' :: 'l' :: '(' :: c :: rest =>
    if c = '\'' || c = '"' then cssMatchBody ['u', 'r', 'l', '(', c] rest
    else cssMatchBody ['u', 'r', 'l', '('] (c :: rest)
  | _ => none

/-- Fuelled scanner for `cssContentRaw.replace(urlRegex, cb)` (part_000
line 184): at every position try the regex; on a match emit the callback's
replacement and continue after the match, otherwise copy one character.
The fuel only serves structural recursion; every call site supplies more
fuel than the input length, which a match's strict progress never
exhausts. -/
def cssReplaceF (repl : String → String → String) : Nat → List Char → List Char
  | 0, cs => cs
  | fuel + 1, cs =>
    match cssTryMatch cs with
    | some (raw, ref, rest) =>
      (repl (String.mk raw) (String.mk ref)).data ++ cssReplaceF repl fuel rest
    | none =>
      match cs with
      | [] => []
      | c :: rest => c :: cssReplaceF repl fuel rest

/-- The global regex replace over a character list. -/
def cssReplace (repl : String → String → String) (cs : List Char) : List Char :=
  cssReplaceF repl (cs.length + 1) cs

/-- Fuelled collection of the successive matches of the
`while ((match = urlRegex.exec(...)))` loop (part_000 lines 163-182):
full matched text paired with the captured reference, in order of
occurrence. -/
def cssMatchesF : Nat → List Char → List (String × String)
  | 0, _ => []
  | fuel + 1, cs =>
    match cssTryMatch cs with
    | some (raw, ref, rest) => (String.mk raw, String.mk ref) :: cssMatchesF fuel rest
    | none =>
      match cs with
      | [] => []
      | _ :: rest => cssMatchesF fuel rest

/-- The matches of the scan over a character list. -/
def cssMatches (cs : List Char) : List (String × String) :=
  cssMatchesF (cs.length + 1) cs

/-- String-level wrapper for `cssMatches`. -/
def extractRefs (s : String) : List (String × String) :=
  cssMatches s.data

/-- String-level wrapper for `cssReplace`. -/
def cssRewriteText (repl : String → String → String) (s : String) : String :=
  String.mk (cssReplace repl s.data)

/-- The replacement callback of the CSS rewrite (part_000 lines 184-197):
`data:` references and references that fail to resolve or are not truthy
in the map keep the original matched text; a mapped reference becomes
`url('<path relative to the stylesheet directory>')`. -/
def cssRepl (env : CloneEnv) (m : List (String × String))
    (cssUrl cssFullPath outDir : String) (raw ref : String) : String :=
  if strStarts ref "data:" then raw
  else
    match env.resolveIn cssUrl ref with
    | none => raw
    | some abs =>
      match jsTruthyGet m abs with
      | some lp =>
        "url('" ++ pathRelative (pathDirname cssFullPath) (pathJoin outDir lp) ++ "')"
      | none => raw

/-- One step of the nested-asset fetch loop of the CSS resolver (part_000
lines 163-182): for a non-`data:` reference that resolves and has no
truthy map entry yet, attempt a download and on success extend the map.
The second component records the URLs for which a download was
attempted. -/
def cssFetchStep (env : CloneEnv) (outDir assetsDir cssUrl : String)
    (acc : List (String × String) × List String) (rr : String × String) :
    List (String × String) × List String :=
  if strStarts rr.2 "data:" then acc
  else
    match env.resolveIn cssUrl rr.2 with
    | none => acc
    | some abs =>
      match jsTruthyGet acc.1 abs with
      | some _ => acc
      | none =>
        match downloadAsset env assetsDir abs with
        | .ok _ p _ => (setA acc.1 abs (pathRelative outDir p), acc.2 ++ [abs])
        | .fail _ _ => (acc.1, acc.2 ++ [abs])

/-- The whole nested-asset fetch loop over the stylesheet's extracted
references. -/
def cssFetchPhase (env : CloneEnv) (outDir assetsDir cssUrl : String)
    (start : List (String × String)) (refs : List (String × String)) :
    List (String × String) × List String :=
  refs.foldl (cssFetchStep env outDir assetsDir cssUrl) (start, [])

/-- Whether the rewritten stylesheet is written back, i.e. the
`if (cssContent !== cssContentRaw)` gate (part_000 line 199). -/
def cssWriteNeeded (newText oldText : String) : Bool :=
  newText != oldText

/-- Map effect of processing one stylesheet entry (part_000 lines 156-206):
read the stylesheet (the body the job downloaded for its URL; a read
failure is caught and skipped), then run the nested-asset fetch loop.  The
subsequent text rewrite affects only the file contents, not the map. -/
def cssProcessOne (env : CloneEnv) (outDir : String) (m : List (String × String))
    (u _lp : String) : List (String × String) :=
  match env.fetch u with
  | none => m
  | some content =>
    (cssFetchPhase env outDir (outDir ++ "/assets") u m (extractRefs content)).1

/-- Case-insensitive `.css` suffix test,
`originalUrl.toLowerCase().endsWith(".css")` (part_000 line 157). -/
def cssSuffix (u : String) : Bool :=
  strEnds (lowerStr u) ".css"

/-- One entry of the CSS phase loop: only URLs ending in `.css`
(case-insensitively) are processed. -/
def cssEntryStep (env : CloneEnv) (outDir : String) (m : List (String × String))
    (e : String × String) : List (String × String) :=
  if cssSuffix e.1 then cssProcessOne env outDir m e.1 e.2 else m

/-- The whole CSS phase (part_000 lines 156-206): iterate over the
snapshot `Object.entries(urlToLocal)` taken at phase start (insertion
order), processing the entries whose URL ends in `.css` while the live map
accumulates nested additions. -/
def cssPhase (env : CloneEnv) (outDir : String) (m0 : List (String × String)) :
    List (String × String) :=
  m0.foldl (cssEntryStep env outDir) m0

/-- The final manifest returned by `cloneWebsite` (part_000
lines 245-251). -/
structure Manifest where
  status : String
  message : String
  dir : String
  assetsCount : Nat
  failedDownloads : Nat
deriving DecidableEq, Repr

/-- A normal return of `cloneWebsite`: either a plain error string or the
manifest object. -/
inductive CloneResult where
  | errMsg (s : String)
  | manifest (m : Manifest)
deriving DecidableEq, Repr

/-- An exception escaping `cloneWebsite` (a rejected promise). -/
inductive JsErr where
  | mkdirFailed
  | rootFetchFailed
  | discoveryFailed
deriving DecidableEq, Repr

/-- The fresh output directory
`path.join(process.cwd(), "clones", hostname + "_" + Date.now())` with
`hostname = safeFilename(base.hostname)` (part_000 lines 75-76). -/
def outDirOf (env : CloneEnv) (host : String) : String :=
  pathJoin (pathJoin env.cwd "clones") (safeFilename host ++ "_" ++ env.now)

/-- The derived assets directory (part_000 line 77). -/
def assetsDirOf (env : CloneEnv) (host : String) : String :=
  outDirOf env host ++ "/assets"

/-- The final `urlToLocal` map of a job: initial map from the batch
results, then the CSS phase. -/
def pipelineMap (env : CloneEnv) (host : String) (urls : List String) :
    List (String × String) :=
  cssPhase env (outDirOf env host)
    (buildMap (outDirOf env host) (batchDownload env (assetsDirOf env host) urls))

/-- The manifest literal of part_000 lines 245-251: `assetsCount` is the
number of keys of the final map, `failedDownloads` the number of failed
entries of `downloadResults` (which only the batch phase fills). -/
def cloneManifest (env : CloneEnv) (host : String) (urls : List String) : Manifest :=
  { status := "success"
    message := "Cloned site to " ++ outDirOf env host
    dir := outDirOf env host
    assetsCount := (pipelineMap env host urls).length
    failedDownloads :=
      ((batchDownload env (assetsDirOf env host) urls).filter (fun o => !o.isOk)).length }

/-- Boolean test that a clone run returned a manifest object (rather than
an error string or an exception). -/
def returnsManifest : Except JsErr CloneResult → Bool
  | .ok (.manifest _) => true
  | _ => false

/-- `cloneWebsite(urlStr)` (part_000 lines 66-252) over the oracle
environment.  Falsy/unparseable input returns a plain error string before
any I/O; a failing `fs.mkdir`, a failing root-document GET (line 85 is not
wrapped in try/catch) and a throwing discovery pass all escape as
exceptions; otherwise the batch download, map construction and CSS phase
run and the manifest is returned.  The final HTML rewrite
(`rewriteDoc env.resolve m1 doc`) only affects the written `index.html`,
not the returned manifest. -/
def cloneWebsite (env : CloneEnv) (urlStr : String) : Except JsErr CloneResult :=
  if urlStr = "" then .ok (.errMsg "No URL provided")
  else
    match env.parseUrl urlStr with
    | none => .ok (.errMsg ("Invalid URL: " ++ urlStr))
    | some host =>
      if env.mkdirOk = false then .error .mkdirFailed
      else
        match env.fetchRoot with
        | none => .error .rootFetchFailed
        | some doc =>
          match discover env.resolve doc with
          | .error _ => .error .discoveryFailed
          | .ok urls => .ok (.manifest (cloneManifest env host urls))

/-- Decidable per-occurrence condition under which the CSS rewrite
callback keeps one matched `url()` occurrence unchanged: the reference is
a `data:` URI, fails to resolve, resolves to a URL without a truthy map
entry, or — the state of an already-rewritten stylesheet — the whole
matched text is literally `url('<p>')` for the relative path `<p>` the
callback recomputes for the mapped target.  In the mirror layout this last
case is the generic one: a reference the first pass rewrote to
`url('<rel>')` re-resolves (against the stylesheet's remote URL) to the
original, still-mapped asset URL, and the callback recomputes the very
same relative path, reproducing the matched text. -/
def refStableB (env : CloneEnv) (m : List (String × String))
    (cssUrl fp outDir : String) (raw ref : String) : Bool :=
  strStarts ref "data:" ||
    (match env.resolveIn cssUrl ref with
     | none => true
     | some abs =>
       match jsTruthyGet m abs with
       | none => true
       | some lp =>
         raw == "url('" ++ pathRelative (pathDirname fp) (pathJoin outDir lp) ++ "')")

/-- Decidable form of "every URL token of this element's `srcset` value
parses": empty tokens are skipped by the code before parsing. -/
def srcsetOkB (resolve : String → Option String) (el : Elem) : Bool :=
  match getAttr el "srcset" with
  | none => true
  | some v =>
    (splitChar ',' v).all (fun part =>
      match wsSplit (trimStr part) with
      | [] => true
      | u :: _ => u = "" || (resolve u).isSome)

/-- Total (never-throwing) variant of `discoverSrcset`, skipping tokens
that fail to resolve; used to describe what discovery computes when no
srcset token throws. -/
def discoverSrcsetP (resolve : String → Option String) (acc : List String)
    (v : String) : List String :=
  (splitChar ',' v).foldl (fun acc part =>
    match wsSplit (trimStr part) with
    | [] => acc
    | u :: _ =>
      if u = "" then acc
      else
        match resolve u with
        | none => acc
        | some abs => dedupAdd acc abs) acc

/-- Total variant of `discoverValue`. -/
def discoverValueP (resolve : String → Option String) (acc : List String)
    (a v : String) : List String :=
  if a = "srcset" then discoverSrcsetP resolve acc v
  else
    match resolve v with
    | none => acc
    | some abs => dedupAdd acc abs

/-- One element's contribution inside one catalogue pass of the total
discovery. -/
def discElStep (resolve : String → Option String) (p : String × String)
    (acc : List String) (el : Elem) : List String :=
  if el.tag = p.1 then
    match getAttr el p.2 with
    | none => acc
    | some v => if v = "" then acc else discoverValueP resolve acc p.2 v
  else acc

/-- Total variant of the full discovery pass. -/
def discoverP (resolve : String → Option String) (doc : List Elem) : List String :=
  assetSelectors.foldl (fun acc p => doc.foldl (discElStep resolve p) acc) []

/-- Environment with a parseable root URL whose root-document GET fails:
the fetch network error is not caught anywhere in `cloneWebsite`. -/
def envC2 : CloneEnv :=
  { parseUrl := fun _ => some "example.com"
    cwd := "/w"
    now := "1"
    mkdirOk := true
    fetchRoot := none
    resolve := fun _ => none
    resolveIn := fun _ _ => none
    fetch := fun _ => none
    pathname := fun _ => none }

/-- Environment whose root document fetch succeeds with an empty page. -/
def envW2 : CloneEnv :=
  { envC2 with fetchRoot := some [] }

/-- Environment for the batch-downloader witness: `u1` downloads fine and
`u2` hits a network failure. -/
def envW4 : CloneEnv :=
  { envC2 with
      fetch := fun u => if u = "u1" then some "B1" else none
      pathname := fun u => if u = "u1" then some "/a1" else some "/a2" }

/-- Element for the C5 counterexample: a `video` with an unmapped,
resolvable `poster` URL and no `src`. -/
def elC5 : Elem :=
  ⟨"video", [("poster", "http://h/v.jpg")]⟩

/-- Document for the C6 counterexample: the first image's srcset holds a
token that does not parse, a second perfectly good image follows. -/
def docC6 : List Elem :=
  [⟨"img", [("srcset", "bad 1x")]⟩, ⟨"img", [("src", "good.png")]⟩]

/-- Resolver for the C6 counterexample: only the token `bad` fails to
parse. -/
def resolveC6 : String → Option String :=
  fun s => if s = "bad" then none else some ("http://h/" ++ s)

/-- Outcome list for the C3 witness: one success and one failure. -/
def outcomesW3 : List Outcome :=
  [.ok "u1" "/o/assets/a" "b", .fail "u2" "e"]

/-- Environment for the C7 witness, modelling the same-host mirror
layout: every non-`data:` reference of the stylesheet at
`http://h/s.css` resolves to `http://h/<ref>`. -/
def envC7 : CloneEnv :=
  { envC2 with
      resolveIn := fun _ r =>
        if strStarts r "data:" then none else some ("http://h/" ++ r) }

/-- Map for the C7 witness: the stylesheet's background image was
downloaded during the job, so its URL is (and stays) mapped. -/
def mapC7 : List (String × String) :=
  [("http://h/bg.png", "assets/bg.png")]

/-- Environment for the C9 witness: one fetchable image next to a `data:`
reference. -/
def envC9 : CloneEnv :=
  { envC2 with
      resolveIn := fun _ r => if strStarts r "data:" then none else some ("http://h/" ++ r)
      fetch := fun u => if u = "http://h/x.png" then some "IMG" else none
      pathname := fun u => if u = "http://h/x.png" then some "/x.png" else none }

/-- Document for the C6 witness: an unparseable single-valued reference
followed by a good image reference. -/
def docW6 : List Elem :=
  [⟨"link", [("href", "bad-ref")]⟩, ⟨"img", [("src", "ok.png")]⟩]

/-- Resolver for the C6 witness: only `bad-ref` fails to parse. -/
def resolveW6 : String → Option String :=
  fun s => if s = "bad-ref" then none else some ("http://h/" ++ s)

/-- Document for the C10 witness: one stylesheet link. -/
def docW10 : List Elem :=
  [⟨"link", [("href", "s.css")]⟩]

/-- Environment for the C10 witness whose nested CSS image fetch fails. -/
def envW10a : CloneEnv :=
  { parseUrl := fun _ => some "h"
    cwd := "/w"
    now := "1"
    mkdirOk := true
    fetchRoot := some docW10
    resolve := fun v => if v = "s.css" then some "http://h/s.css" else none
    resolveIn := fun _ r => some ("http://h/" ++ r)
    fetch := fun u => if u = "http://h/s.css" then some "body:url(i.png)" else none
    pathname := fun u =>
      if u = "http://h/s.css" then some "/s.css"
      else if u = "http://h/i.png" then some "/i.png" else none }

/-- Same environment except the nested CSS image fetch succeeds. -/
def envW10b : CloneEnv :=
  { envW10a with
      fetch := fun u =>
        if u = "http://h/s.css" then some "body:url(i.png)"
        else if u = "http://h/i.png" then some "IMG" else none }

end Cloner

namespace Cloner

/-! Helper lemmas shared between the claim theorems. -/

theorem lookupA_setA (m : List (String × String)) (k v u : String) :
    lookupA (setA m k v) u = if k = u then some v else lookupA m u := by
  induction m with
  | nil => simp [setA, lookupA]
  | cons e t ih =>
    obtain ⟨k0, v0⟩ := e
    by_cases h0 : k0 = k
    · subst h0
      simp only [setA, if_pos rfl, lookupA]
      by_cases h1 : k0 = u <;> simp [h1]
    · simp only [setA, if_neg h0, lookupA, ih]
      by_cases h1 : k0 = u
      · subst h1
        have : ¬ k = k0 := fun h => h0 h.symm
        simp [this]
      · simp [h1]

theorem lookupA_mem {m : List (String × String)} {u v : String}
    (h : lookupA m u = some v) : (u, v) ∈ m := by
  induction m with
  | nil => simp [lookupA] at h
  | cons e t ih =>
    obtain ⟨k0, v0⟩ := e
    simp only [lookupA] at h
    by_cases h0 : k0 = u
    · subst h0
      rw [if_pos rfl] at h
      injection h with hv
      rw [← hv]
      exact List.mem_cons_self _ _
    · rw [if_neg h0] at h
      exact List.mem_cons_of_mem _ (ih h)

theorem downloadAsset_url (env : CloneEnv) (b u : String) :
    (downloadAsset env b u).url = u := by
  unfold downloadAsset
  cases hf : env.fetch u
  · rfl
  · cases hp : env.pathname u
    · rfl
    · dsimp only
      rw [apply_ite Outcome.url]
      split <;> split <;> rfl

theorem chunk5_flatten (l : List String) : (chunk5 l).flatten = l := by
  induction l using chunk5.induct with
  | case1 => rfl
  | case2 a b c d e rest ih => simp [chunk5, ih]
  | case3 a => rfl
  | case4 a b => rfl
  | case5 a b c => rfl
  | case6 a b c d => rfl

theorem batchDownload_eq_map (env : CloneEnv) (outBase : String) (urls : List String) :
    batchDownload env outBase urls = urls.map (downloadAsset env outBase) := by
  induction urls using chunk5.induct with
  | case1 => rfl
  | case2 a b c d e rest ih =>
    unfold batchDownload at ih ⊢
    simp [chunk5, ih]
  | case3 a => rfl
  | case4 a b => rfl
  | case5 a b c => rfl
  | case6 a b c d => rfl

theorem filter_url_len_nil {u : String} {l : List String} (f : String → Outcome)
    (hurl : ∀ x, (f x).url = x) (hne : ∀ x ∈ l, x ≠ u) :
    (l.map f).filter (fun o => o.url == u) = [] := by
  induction l with
  | nil => rfl
  | cons a t ih =>
    have ha : ¬ ((f a).url == u) = true := by
      rw [hurl a]
      simpa using hne a (List.mem_cons_self _ _)
    simp only [List.map_cons, List.filter_cons]
    rw [if_neg ha]
    exact ih (fun x hx => hne x (List.mem_cons_of_mem _ hx))

theorem filter_url_len_one {u : String} {l : List String} (f : String → Outcome)
    (hurl : ∀ x, (f x).url = x) (h : l.Nodup) (hu : u ∈ l) :
    ((l.map f).filter (fun o => o.url == u)).length = 1 := by
  induction l with
  | nil => simp at hu
  | cons a t ih =>
    simp only [List.map_cons, List.filter_cons]
    rcases List.mem_cons.mp hu with rfl | hmem
    · rw [if_pos (by rw [hurl]; exact beq_self_eq_true u)]
      have hnin : ∀ x ∈ t, x ≠ u := by
        intro x hx hxu
        exact (List.nodup_cons.mp h).1 (hxu ▸ hx)
      rw [filter_url_len_nil f hurl hnin]
      rfl
    · have hau : a ≠ u := by
        intro hx
        exact (List.nodup_cons.mp h).1 (hx ▸ hmem)
      rw [if_neg (by rw [hurl a]; simpa using hau)]
      exact ih (List.nodup_cons.mp h).2 hmem

end Cloner

namespace Cloner

/-- For claim C1: the `startsWith` guard in `downloadAsset` passes for a
sibling directory whose name extends the root's name, so the asset is
written outside the output root instead of being rejected.  The URL
`data:../assets_evil/pwn;base64,eHg=` is an opaque-path URL whose
`pathname` is `../assets_evil/pwn;base64,eHg=` verbatim; none of its
characters is rewritten by `safeFilename`, so the computed path resolves to
`/w/clones/s_1/assets_evil/...`, a sibling of the root
`/w/clones/s_1/assets` that nonetheless has it as a string prefix. -/
theorem downloadAsset_escapes_root :
    downloadAsset envC1 "/w/clones/s_1/assets" "data:../assets_evil/pwn;base64,eHg="
      = .ok "data:../assets_evil/pwn;base64,eHg=" "/w/clones/s_1/assets_evil/pwn;base64,eHg=" "xx"
    ∧ isWithin "/w/clones/s_1/assets" "/w/clones/s_1/assets_evil/pwn;base64,eHg=" = false := by
  constructor
  · rfl
  · rfl

/-- Claim C4: the batch downloader produces exactly the pointwise download
outcomes of its input list (so N deduplicated URLs yield N outcomes, one
per URL, order preserved batch by batch), and one URL's outcome depends
only on that URL's own fetch result, so a single asset's failure never
affects the other outcomes or aborts the batch. -/
theorem batch_outcomes_cover (env : CloneEnv) (outBase : String) (urls : List String) :
    batchDownload env outBase urls = urls.map (downloadAsset env outBase)
    ∧ (batchDownload env outBase urls).map Outcome.url = urls
    ∧ (urls.Nodup → ∀ u ∈ urls,
        ((batchDownload env outBase urls).filter (fun o => o.url == u)).length = 1)
    ∧ (∀ (env2 : CloneEnv) (u v : String), env2.fetch v = env.fetch v →
        env2.pathname v = env.pathname v → v ≠ u →
        downloadAsset env2 outBase v = downloadAsset env outBase v) := by
  refine ⟨batchDownload_eq_map env outBase urls, ?_, ?_, ?_⟩
  · rw [batchDownload_eq_map env outBase urls, List.map_map]
    have hc : (Outcome.url ∘ downloadAsset env outBase) = id :=
      funext (fun x => downloadAsset_url env outBase x)
    rw [hc, List.map_id]
  · intro h u hu
    rw [batchDownload_eq_map env outBase urls]
    exact filter_url_len_one _ (downloadAsset_url env outBase) h hu
  · intro env2 u v h1 h2 _
    unfold downloadAsset
    rw [h1, h2]

/-- Witness for C4 at a concrete two-URL batch in which the second URL's
fetch fails: both outcomes are present, one per URL. -/
theorem batch_outcomes_cover_witness :
    (batchDownload envW4 "/o" ["u1", "u2"]).map Outcome.url = ["u1", "u2"]
    ∧ ((batchDownload envW4 "/o" ["u1", "u2"]).filter (fun o => o.url == "u1")).length = 1 :=
  ⟨(batch_outcomes_cover envW4 "/o" ["u1", "u2"]).2.1,
    (batch_outcomes_cover envW4 "/o" ["u1", "u2"]).2.2.1 (by decide) "u1" (by decide)⟩

/-- Claim C5 (amended): for a single-valued catalogue attribute with a
resolvable value, a truthy map entry replaces the attribute's own value
with the local path (so the original URL does not survive in that
attribute); an unmapped value on a `src`/`poster` attribute makes the code
write the placeholder into the `src` attribute (hard-coded in the source,
so a matched `poster` attribute itself keeps its old value); every other
attribute kind is left unchanged. -/
theorem mapAttr_single_amended (resolve : String → Option String)
    (m : List (String × String)) (a : String) (el : Elem) (v abs : String)
    (hsr : a ≠ "srcset") (hv : getAttr el a = some v) (hne : v ≠ "")
    (hres : resolve v = some abs) :
    (∀ lp, jsTruthyGet m abs = some lp →
       mapAttrEl resolve m a el = setAttr el a lp
       ∧ getAttr (mapAttrEl resolve m a el) a = some lp)
    ∧ (jsTruthyGet m abs = none → (a = "src" ∨ a = "poster") →
       mapAttrEl resolve m a el = setAttr el "src" (placeholderUrl el))
    ∧ (jsTruthyGet m abs = none → ¬(a = "src" ∨ a = "poster") →
       mapAttrEl resolve m a el = el) := by
  refine ⟨?_, ?_, ?_⟩
  · intro lp hlp
    have he : mapAttrEl resolve m a el = setAttr el a lp := by
      simp [mapAttrEl, hv, hne, hsr, hres, hlp]
    refine ⟨he, ?_⟩
    rw [he]
    unfold getAttr setAttr
    simp [lookupA_setA]
  · intro hnone hsp
    have hb : a ≠ "srcset" := hsr
    rcases hsp with h | h <;> subst h <;> simp [mapAttrEl, hv, hne, hres, hnone]
  · intro hnone hnsp
    have h1 : a ≠ "src" := fun h => hnsp (Or.inl h)
    have h2 : a ≠ "poster" := fun h => hnsp (Or.inr h)
    simp [mapAttrEl, hv, hne, hsr, hres, hnone, h1, h2]

/-- Counterexample for C5 as frozen: an unmapped but resolvable `poster`
value is NOT replaced by the placeholder — the `poster` attribute keeps
its original URL and the placeholder is written into `src` instead. -/
theorem mapAttr_poster_not_replaced :
    getAttr (mapAttrEl (fun s => some s) [] "poster" elC5) "poster" = some "http://h/v.jpg"
    ∧ getAttr (mapAttrEl (fun s => some s) [] "poster" elC5) "src"
      = some "https://placehold.co/400x300/EEE/31343C?text=Failed+to+Load" := by
  constructor
  · rfl
  · rfl

/-- Witness for C5 (amended) on a mapped `script[src]` reference. -/
theorem mapAttr_single_amended_witness :
    mapAttrEl (fun s => some s) [("http://h/s.js", "assets/s.js")] "src"
      ⟨"script", [("src", "http://h/s.js")]⟩
      = setAttr ⟨"script", [("src", "http://h/s.js")]⟩ "src" "assets/s.js" :=
  ((mapAttr_single_amended (fun s => some s) [("http://h/s.js", "assets/s.js")] "src"
      ⟨"script", [("src", "http://h/s.js")]⟩ "http://h/s.js" "http://h/s.js"
      (by decide) rfl (by decide) rfl).1 "assets/s.js" rfl).1

/-- Claim C2 (amended): an empty URL and an unparseable URL return plain
error strings before any I/O; when directory creation, the root-document
fetch and the discovery pass all succeed, the job returns a manifest
object.  (As frozen the claim fails: a root-fetch failure or a throwing
srcset token escapes `cloneWebsite` as an exception, see the
counterexample.) -/
theorem cloneWebsite_total_amended :
    (∀ env : CloneEnv, cloneWebsite env "" = .ok (.errMsg "No URL provided"))
    ∧ (∀ (env : CloneEnv) (u : String), u ≠ "" → env.parseUrl u = none →
        cloneWebsite env u = .ok (.errMsg ("Invalid URL: " ++ u)))
    ∧ (∀ (env : CloneEnv) (u host : String) (doc : List Elem) (urls : List String),
        u ≠ "" → env.parseUrl u = some host → env.mkdirOk = true →
        env.fetchRoot = some doc → discover env.resolve doc = .ok urls →
        cloneWebsite env u = .ok (.manifest (cloneManifest env host urls))
        ∧ returnsManifest (cloneWebsite env u) = true) := by
  refine ⟨fun env => rfl, ?_, ?_⟩
  · intro env u hu hp
    unfold cloneWebsite
    rw [if_neg hu, hp]
  · intro env u host doc urls hu hp hmk hroot hdisc
    have he : cloneWebsite env u = .ok (.manifest (cloneManifest env host urls)) := by
      simp [cloneWebsite, hu, hp, hmk, hroot, hdisc]
    exact ⟨he, by rw [he]; rfl⟩

/-- Counterexample for C2 as frozen: with a perfectly parseable URL whose
root-document GET fails, `cloneWebsite` neither returns a manifest nor an
error string — the rejection escapes its boundary. -/
theorem cloneWebsite_throws_on_root_fetch :
    cloneWebsite envC2 "http://example.com/" = .error .rootFetchFailed := by
  rfl

/-- Witness for C2 (amended) on a concrete successful environment. -/
theorem cloneWebsite_total_amended_witness :
    returnsManifest (cloneWebsite envW2 "http://example.com/") = true :=
  (cloneWebsite_total_amended.2.2 envW2 "http://example.com/" "example.com" [] []
    (by decide) rfl rfl rfl rfl).2

theorem buildFold_lookup_of_ne (outDir : String) (post : List Outcome) :
    ∀ (m : List (String × String)) (u : String), (∀ o ∈ post, o.url ≠ u) →
      lookupA (post.foldl (buildStep outDir) m) u = lookupA m u := by
  induction post with
  | nil => intro m u _; rfl
  | cons o t ih =>
    intro m u h
    rw [List.foldl_cons]
    rw [ih _ u (fun o2 h2 => h o2 (List.mem_cons_of_mem _ h2))]
    cases o with
    | ok u0 p b =>
      have hne : u0 ≠ u := h (.ok u0 p b) (List.mem_cons_self _ _)
      simp [buildStep, lookupA_setA, hne]
    | fail u0 e => rfl

theorem buildFold_lookup_mem (outDir : String) (post : List Outcome) :
    ∀ (m : List (String × String)) (u v : String),
      lookupA (post.foldl (buildStep outDir) m) u = some v →
      u ∈ post.map Outcome.url ∨ lookupA m u = some v := by
  induction post with
  | nil => intro m u v h; exact Or.inr h
  | cons o t ih =>
    intro m u v h
    rw [List.foldl_cons] at h
    rcases ih _ u v h with hmem | hrest
    · exact Or.inl (List.mem_cons_of_mem _ hmem)
    · cases o with
      | ok u0 p b =>
        rw [buildStep, lookupA_setA] at hrest
        by_cases h0 : u0 = u
        · exact Or.inl (by simp [Outcome.url, h0])
        · rw [if_neg h0] at hrest
          exact Or.inr hrest
      | fail u0 e => exact Or.inr hrest

theorem cssFetchFold_preserve (env : CloneEnv) (outDir assetsDir cssUrl : String)
    (refs : List (String × String)) :
    ∀ (acc : List (String × String) × List String) (u v : String), v ≠ "" →
      lookupA acc.1 u = some v →
      lookupA (refs.foldl (cssFetchStep env outDir assetsDir cssUrl) acc).1 u = some v := by
  induction refs with
  | nil => intro acc u v _ h; exact h
  | cons rr t ih =>
    intro acc u v hv h
    rw [List.foldl_cons]
    refine ih _ u v hv ?_
    unfold cssFetchStep
    split
    · exact h
    · split
      · exact h
      · next abs heq =>
        match hjs : jsTruthyGet acc.1 abs with
        | some lp => exact h
        | none =>
          have habs : abs ≠ u := by
            intro hx
            rw [hx] at hjs
            simp [jsTruthyGet, h, hv] at hjs
          match downloadAsset env assetsDir abs with
          | .ok _ p _ =>
            dsimp only
            rw [lookupA_setA]
            rw [if_neg habs]
            exact h
          | .fail _ _ => exact h

theorem cssProcessOne_preserve (env : CloneEnv) (outDir : String)
    (m : List (String × String)) (u0 lp0 u v : String) (hv : v ≠ "")
    (h : lookupA m u = some v) :
    lookupA (cssProcessOne env outDir m u0 lp0) u = some v := by
  unfold cssProcessOne
  cases env.fetch u0 with
  | none => exact h
  | some content =>
    exact cssFetchFold_preserve env outDir (outDir ++ "/assets") u0
      (extractRefs content) (m, []) u v hv h

theorem cssPhaseFold_preserve (env : CloneEnv) (outDir : String)
    (entries : List (String × String)) :
    ∀ (m : List (String × String)) (u v : String), v ≠ "" →
      lookupA m u = some v →
      lookupA (entries.foldl (cssEntryStep env outDir) m) u = some v := by
  induction entries with
  | nil => intro m u v _ h; exact h
  | cons e t ih =>
    intro m u v hv h
    rw [List.foldl_cons]
    refine ih _ u v hv ?_
    unfold cssEntryStep
    split
    · exact cssProcessOne_preserve env outDir m e.1 e.2 u v hv h
    · exact h

/-- Claim C3: the `urlToLocal` map grows monotonically — a URL assigned a
(non-empty) local path during the initial batch phase keeps it through the
rest of the batch phase (the batch URL list is deduplicated) and through
the entire CSS phase; likewise, at every point inside CSS resolution an
existing binding survives all later guarded insertions (`if
(!urlToLocal[absoluteUrl])`).  Non-emptiness of stored paths matters
because the source's guards use JavaScript truthiness; an empty relative
path is unreachable in a real job since every written file lies strictly
below the output directory. -/
theorem urlToLocal_monotone (env : CloneEnv) (outDir : String) (outcomes : List Outcome)
    (hn : (outcomes.map Outcome.url).Nodup)
    (hval : ∀ e ∈ buildMap outDir outcomes, e.2 ≠ "") :
    (∀ pre post u v, outcomes = pre ++ post →
       lookupA (buildMap outDir pre) u = some v →
       lookupA (buildMap outDir outcomes) u = some v)
    ∧ (∀ u v, lookupA (buildMap outDir outcomes) u = some v →
       lookupA (cssPhase env outDir (buildMap outDir outcomes)) u = some v)
    ∧ (∀ (outDir2 assetsDir cssUrl : String) (m : List (String × String))
         (refs : List (String × String)) (u v : String),
       lookupA m u = some v → v ≠ "" →
       lookupA (cssFetchPhase env outDir2 assetsDir cssUrl m refs).1 u = some v) := by
  refine ⟨?_, ?_, ?_⟩
  · intro pre post u v heq hlk
    subst heq
    unfold buildMap at hlk ⊢
    rw [List.foldl_append]
    have hupre : u ∈ pre.map Outcome.url := by
      rcases buildFold_lookup_mem outDir pre [] u v hlk with h | h
      · exact h
      · exact absurd h (by simp [lookupA])
    have hdisj : (pre.map Outcome.url).Disjoint (post.map Outcome.url) := by
      rw [List.map_append, List.nodup_append] at hn
      exact hn.2.2
    have hpost : ∀ o ∈ post, o.url ≠ u := by
      intro o ho hx
      exact hdisj hupre (hx ▸ List.mem_map_of_mem Outcome.url ho)
    rw [buildFold_lookup_of_ne outDir post _ u hpost]
    exact hlk
  · intro u v h
    have hv : v ≠ "" := hval (u, v) (lookupA_mem h)
    exact cssPhaseFold_preserve env outDir (buildMap outDir outcomes)
      (buildMap outDir outcomes) u v hv h
  · intro outDir2 assetsDir cssUrl m refs u v h hv
    exact cssFetchFold_preserve env outDir2 assetsDir cssUrl refs (m, []) u v hv h

/-- Witness for C3: a concrete two-outcome job in which the success's
binding survives both the rest of the batch phase and the CSS phase. -/
theorem urlToLocal_monotone_witness :
    lookupA (buildMap "/o" outcomesW3) "u1" = some "assets/a"
    ∧ lookupA (cssPhase envC2 "/o" (buildMap "/o" outcomesW3)) "u1" = some "assets/a" := by
  have h := urlToLocal_monotone envC2 "/o" outcomesW3 (by decide) (by decide)
  have h1 : lookupA (buildMap "/o" outcomesW3) "u1" = some "assets/a" := by decide
  exact ⟨h1, h.2.1 "u1" "assets/a" h1⟩

theorem takeDropRef_append (cs : List Char) :
    (takeDropRef cs).1 ++ (takeDropRef cs).2 = cs := by
  induction cs with
  | nil => rfl
  | cons c rest ih =>
    by_cases hc : isRefChar c = true
    · simp [takeDropRef, hc, ih]
    · simp [takeDropRef, hc]

theorem cssMatchBody_append (opened rest1 raw ref rest : List Char)
    (hm : cssMatchBody opened rest1 = some (raw, ref, rest)) :
    raw ++ rest = opened ++ rest1 ∧ raw ≠ [] := by
  have htd := takeDropRef_append rest1
  unfold cssMatchBody at hm
  rcases hp : takeDropRef rest1 with ⟨body, rest2⟩
  rw [hp] at hm htd
  simp only at hm htd
  by_cases hb : body.isEmpty
  · rw [if_pos hb] at hm
    exact absurd hm (by simp)
  · rw [if_neg hb] at hm
    split at hm
    · next r3 =>
      simp only [Option.some.injEq, Prod.mk.injEq] at hm
      obtain ⟨h1, _h2, h3⟩ := hm
      subst h1
      subst h3
      constructor
      · rw [← htd]
        simp
      · simp
    · next c r3 =>
      split at hm
      · simp only [Option.some.injEq, Prod.mk.injEq] at hm
        obtain ⟨h1, _h2, h3⟩ := hm
        subst h1
        subst h3
        constructor
        · rw [← htd]
          simp
        · simp
      · exact absurd hm (by simp)
    · exact absurd hm (by simp)

theorem cssTryMatch_split (cs raw ref rest : List Char)
    (hm : cssTryMatch cs = some (raw, ref, rest)) :
    raw ++ rest = cs ∧ rest.length < cs.length := by
  have hmain : raw ++ rest = cs ∧ raw ≠ [] := by
    unfold cssTryMatch at hm
    split at hm
    · next c rest0 =>
      split at hm
      · obtain ⟨happ, hne⟩ := cssMatchBody_append _ _ _ _ _ hm
        exact ⟨by rw [happ]; rfl, hne⟩
      · obtain ⟨happ, hne⟩ := cssMatchBody_append _ _ _ _ _ hm
        exact ⟨by rw [happ]; rfl, hne⟩
    · exact absurd hm (by simp)
  refine ⟨hmain.1, ?_⟩
  have hlen := congrArg List.length hmain.1
  rw [List.length_append] at hlen
  have hpos : 0 < raw.length := List.length_pos.mpr hmain.2
  omega

theorem cssReplaceF_id (repl : String → String → String) :
    ∀ (fuel : Nat) (cs : List Char),
      (∀ pr ∈ cssMatchesF fuel cs, repl pr.1 pr.2 = pr.1) →
      cssReplaceF repl fuel cs = cs := by
  intro fuel
  induction fuel with
  | zero => intro cs _; rfl
  | succ n ih =>
    intro cs h
    unfold cssReplaceF
    cases hm : cssTryMatch cs with
    | some val =>
      obtain ⟨raw, ref, rest⟩ := val
      have hmm : cssMatchesF (n + 1) cs
          = (String.mk raw, String.mk ref) :: cssMatchesF n rest := by
        simp only [cssMatchesF]
        rw [hm]
      have hhead : repl (String.mk raw) (String.mk ref) = String.mk raw := by
        refine h (String.mk raw, String.mk ref) ?_
        rw [hmm]
        exact List.mem_cons_self _ _
      have htail : ∀ pr ∈ cssMatchesF n rest, repl pr.1 pr.2 = pr.1 := by
        intro pr hpr
        refine h pr ?_
        rw [hmm]
        exact List.mem_cons_of_mem _ hpr
      dsimp only
      rw [hhead, ih rest htail]
      exact (cssTryMatch_split cs raw ref rest hm).1
    | none =>
      cases cs with
      | nil => rfl
      | cons c rest =>
        have hmm : cssMatchesF (n + 1) (c :: rest) = cssMatchesF n rest := by
          simp only [cssMatchesF]
          rw [hm]
        have htail : ∀ pr ∈ cssMatchesF n rest, repl pr.1 pr.2 = pr.1 := by
          intro pr hpr
          refine h pr ?_
          rw [hmm]
          exact hpr
        dsimp only
        rw [ih rest htail]

theorem cssReplace_id (repl : String → String → String) (cs : List Char)
    (h : ∀ pr ∈ cssMatches cs, repl pr.1 pr.2 = pr.1) :
    cssReplace repl cs = cs :=
  cssReplaceF_id repl (cs.length + 1) cs h

theorem cssRepl_id_of_refStableB (env : CloneEnv) (m : List (String × String))
    (cssUrl fp outDir raw ref : String)
    (h : refStableB env m cssUrl fp outDir raw ref = true) :
    cssRepl env m cssUrl fp outDir raw ref = raw := by
  unfold refStableB at h
  unfold cssRepl
  by_cases hd : strStarts ref "data:" = true
  · rw [if_pos hd]
  · rw [if_neg hd]
    simp only [Bool.or_eq_true] at h
    rcases h with hd2 | hrest
    · exact absurd hd2 hd
    · cases hres : env.resolveIn cssUrl ref with
      | none => rfl
      | some abs =>
        rw [hres] at hrest
        simp only at hrest
        dsimp only
        cases hjs : jsTruthyGet m abs with
        | none => rfl
        | some lp =>
          rw [hjs] at hrest
          simp only [beq_iff_eq] at hrest
          rw [hrest]

theorem cssRewrite_stable (env : CloneEnv) (m : List (String × String))
    (outDir fp cssUrl content : String)
    (h : ∀ pr ∈ extractRefs content, refStableB env m cssUrl fp outDir pr.1 pr.2 = true) :
    cssRewriteText (cssRepl env m cssUrl fp outDir) content = content := by
  have hall : ∀ pr ∈ cssMatches content.data,
      cssRepl env m cssUrl fp outDir pr.1 pr.2 = pr.1 :=
    fun pr hpr => cssRepl_id_of_refStableB env m cssUrl fp outDir pr.1 pr.2 (h pr hpr)
  unfold cssRewriteText
  rw [cssReplace_id _ _ hall]

/-- Claim C7: CSS rewriting is idempotent and change-gated.  A matched
occurrence is stable when its reference is `data:`, unresolvable,
unmapped, or — the generic already-rewritten case of the mirror layout —
the matched text is literally `url('<p>')` for the relative path `<p>` the
callback recomputes for its mapped target (a first-pass rewrite
re-resolves to the original, still-mapped URL and recomputes the same
path).  A stylesheet all of whose occurrences are stable is rewritten to
itself; in particular, running the rewrite a second time on a first
pass's output whose occurrences are stable changes nothing; and the file
write-back happens exactly when the text changed. -/
theorem css_rewrite_idempotent_gated :
    (∀ (env : CloneEnv) (m : List (String × String)) (outDir cssFullPath cssUrl : String)
       (content : String),
       (∀ pr ∈ extractRefs content,
          refStableB env m cssUrl cssFullPath outDir pr.1 pr.2 = true) →
       cssRewriteText (cssRepl env m cssUrl cssFullPath outDir) content = content
       ∧ cssWriteNeeded (cssRewriteText (cssRepl env m cssUrl cssFullPath outDir) content)
           content = false)
    ∧ (∀ (env : CloneEnv) (m : List (String × String)) (outDir cssFullPath cssUrl : String)
       (content : String),
       (∀ pr ∈ extractRefs (cssRewriteText (cssRepl env m cssUrl cssFullPath outDir) content),
          refStableB env m cssUrl cssFullPath outDir pr.1 pr.2 = true) →
       cssRewriteText (cssRepl env m cssUrl cssFullPath outDir)
           (cssRewriteText (cssRepl env m cssUrl cssFullPath outDir) content)
         = cssRewriteText (cssRepl env m cssUrl cssFullPath outDir) content)
    ∧ (∀ newText oldText : String, cssWriteNeeded newText oldText = true ↔ newText ≠ oldText) := by
  refine ⟨?_, ?_, ?_⟩
  · intro env m outDir fp cssUrl content h
    have he := cssRewrite_stable env m outDir fp cssUrl content h
    refine ⟨he, ?_⟩
    rw [he]
    simp [cssWriteNeeded]
  · intro env m outDir fp cssUrl content h
    exact cssRewrite_stable env m outDir fp cssUrl
      (cssRewriteText (cssRepl env m cssUrl fp outDir) content) h
  · intro newText oldText
    simp [cssWriteNeeded]

/-- Witness for C7 on the canonical mirror layout: the stylesheet at
`http://h/s.css`, stored at `/o/assets/s.css`, references the mapped
image `http://h/bg.png` (stored at `assets/bg.png`) plus a `data:` URI.
The first pass genuinely rewrites it; the already-rewritten text — whose
reference `bg.png` re-resolves to the still-mapped original URL — is
rewritten to itself, and a second pass over the first pass's output
changes nothing. -/
theorem css_rewrite_idempotent_gated_witness :
    cssRewriteText (cssRepl envC7 mapC7 "http://h/s.css" "/o/assets/s.css" "/o")
        "body:url(bg.png) x url('data:zz')"
      ≠ "body:url(bg.png) x url('data:zz')"
    ∧ cssRewriteText (cssRepl envC7 mapC7 "http://h/s.css" "/o/assets/s.css" "/o")
        "body:url('bg.png') x url('data:zz')"
      = "body:url('bg.png') x url('data:zz')"
    ∧ cssRewriteText (cssRepl envC7 mapC7 "http://h/s.css" "/o/assets/s.css" "/o")
        (cssRewriteText (cssRepl envC7 mapC7 "http://h/s.css" "/o/assets/s.css" "/o")
          "body:url(bg.png) x url('data:zz')")
      = cssRewriteText (cssRepl envC7 mapC7 "http://h/s.css" "/o/assets/s.css" "/o")
          "body:url(bg.png) x url('data:zz')" :=
  ⟨by decide,
   (css_rewrite_idempotent_gated.1 envC7 mapC7 "/o" "/o/assets/s.css" "http://h/s.css"
      "body:url('bg.png') x url('data:zz')" (by decide)).1,
   css_rewrite_idempotent_gated.2.1 envC7 mapC7 "/o" "/o/assets/s.css" "http://h/s.css"
      "body:url(bg.png) x url('data:zz')" (by decide)⟩

theorem cssFetchFold_fetched (env : CloneEnv) (outDir assetsDir cssUrl : String)
    (refs : List (String × String)) :
    ∀ (acc : List (String × String) × List String) (u : String),
      u ∈ (refs.foldl (cssFetchStep env outDir assetsDir cssUrl) acc).2 →
      u ∈ acc.2 ∨ ∃ rr ∈ refs,
        strStarts rr.2 "data:" = false ∧ env.resolveIn cssUrl rr.2 = some u := by
  induction refs with
  | nil => intro acc u h; exact Or.inl h
  | cons rr t ih =>
    intro acc u h
    rw [List.foldl_cons] at h
    rcases ih _ u h with hacc | ⟨rr2, h2, h3, h4⟩
    · unfold cssFetchStep at hacc
      split at hacc
      · exact Or.inl hacc
      · next hdata =>
        cases hres : env.resolveIn cssUrl rr.2 with
        | none => rw [hres] at hacc; exact Or.inl hacc
        | some abs =>
          rw [hres] at hacc
          dsimp only at hacc
          cases hjs : jsTruthyGet acc.1 abs with
          | some lp => rw [hjs] at hacc; exact Or.inl hacc
          | none =>
            rw [hjs] at hacc
            dsimp only at hacc
            cases hdl : downloadAsset env assetsDir abs with
            | ok u0 p b =>
              rw [hdl] at hacc
              dsimp only at hacc
              rcases List.mem_append.mp hacc with h5 | h5
              · exact Or.inl h5
              · have he : u = abs := by simpa using h5
                subst he
                exact Or.inr ⟨rr, List.mem_cons_self _ _, by simpa using hdata, hres⟩
            | fail u0 e =>
              rw [hdl] at hacc
              dsimp only at hacc
              rcases List.mem_append.mp hacc with h5 | h5
              · exact Or.inl h5
              · have he : u = abs := by simpa using h5
                subst he
                exact Or.inr ⟨rr, List.mem_cons_self _ _, by simpa using hdata, hres⟩
    · exact Or.inr ⟨rr2, List.mem_cons_of_mem _ h2, h3, h4⟩

theorem cssFetchFold_new_keys (env : CloneEnv) (outDir assetsDir cssUrl : String)
    (refs : List (String × String)) :
    ∀ (acc : List (String × String) × List String) (u v : String),
      lookupA acc.1 u = none →
      lookupA (refs.foldl (cssFetchStep env outDir assetsDir cssUrl) acc).1 u = some v →
      ∃ rr ∈ refs,
        strStarts rr.2 "data:" = false ∧ env.resolveIn cssUrl rr.2 = some u := by
  induction refs with
  | nil =>
    intro acc u v h0 h1
    rw [List.foldl_nil] at h1
    rw [h0] at h1
    exact Option.noConfusion h1
  | cons rr t ih =>
    intro acc u v h0 h1
    rw [List.foldl_cons] at h1
    by_cases hk : lookupA (cssFetchStep env outDir assetsDir cssUrl acc rr).1 u = none
    · obtain ⟨rr2, h2, h3, h4⟩ := ih _ u v hk h1
      exact ⟨rr2, List.mem_cons_of_mem _ h2, h3, h4⟩
    · unfold cssFetchStep at hk
      split at hk
      · exact absurd h0 hk
      · next hdata =>
        cases hres : env.resolveIn cssUrl rr.2 with
        | none => rw [hres] at hk; exact absurd h0 hk
        | some abs =>
          rw [hres] at hk
          dsimp only at hk
          cases hjs : jsTruthyGet acc.1 abs with
          | some lp => rw [hjs] at hk; exact absurd h0 hk
          | none =>
            rw [hjs] at hk
            dsimp only at hk
            cases hdl : downloadAsset env assetsDir abs with
            | ok u0 p b =>
              rw [hdl] at hk
              dsimp only at hk
              rw [lookupA_setA] at hk
              by_cases he : abs = u
              · subst he
                exact ⟨rr, List.mem_cons_self _ _, by simpa using hdata, hres⟩
              · rw [if_neg he] at hk
                exact absurd h0 hk
            | fail u0 e =>
              rw [hdl] at hk
              exact absurd h0 hk

/-- Claim C9: `data:` references inside `url()` are inert — the CSS fetch
loop never attempts a download for them (every attempted URL is the
resolution of a non-`data:` reference), every key the loop adds to the map
likewise comes from a non-`data:` reference, and the rewrite callback
returns the matched text of a `data:` occurrence verbatim (so a stylesheet
whose references are all `data:` is rewritten to itself). -/
theorem css_data_uris_untouched (env : CloneEnv)
    (outDir assetsDir cssUrl : String) (m : List (String × String)) (content : String) :
    (∀ u ∈ (cssFetchPhase env outDir assetsDir cssUrl m (extractRefs content)).2,
       ((extractRefs content).any (fun pr =>
          !strStarts pr.2 "data:" && decide (env.resolveIn cssUrl pr.2 = some u))) = true)
    ∧ (∀ u v, lookupA m u = none →
       lookupA (cssFetchPhase env outDir assetsDir cssUrl m (extractRefs content)).1 u = some v →
       ((extractRefs content).any (fun pr =>
          !strStarts pr.2 "data:" && decide (env.resolveIn cssUrl pr.2 = some u))) = true)
    ∧ (∀ (cssFullPath raw ref : String), (raw, ref) ∈ extractRefs content →
       strStarts ref "data:" = true →
       cssRepl env m cssUrl cssFullPath outDir raw ref = raw)
    ∧ ((∀ pr ∈ extractRefs content, strStarts pr.2 "data:" = true) →
       ∀ cssFullPath,
         cssRewriteText (cssRepl env m cssUrl cssFullPath outDir) content = content) := by
  refine ⟨?_, ?_, ?_, ?_⟩
  · intro u hu
    unfold cssFetchPhase at hu
    rcases cssFetchFold_fetched env outDir assetsDir cssUrl (extractRefs content)
        (m, []) u hu with h | ⟨rr, h1, h2, h3⟩
    · exact absurd h (List.not_mem_nil u)
    · rw [List.any_eq_true]
      exact ⟨rr, h1, by simp [h2, h3]⟩
  · intro u v h0 h1
    unfold cssFetchPhase at h1
    obtain ⟨rr, h2, h3, h4⟩ := cssFetchFold_new_keys env outDir assetsDir cssUrl
      (extractRefs content) (m, []) u v h0 h1
    rw [List.any_eq_true]
    exact ⟨rr, h2, by simp [h3, h4]⟩
  · intro fp raw ref _hmem hdata
    unfold cssRepl
    rw [if_pos hdata]
  · intro hall fp
    have hall2 : ∀ pr ∈ cssMatches content.data,
        cssRepl env m cssUrl fp outDir pr.1 pr.2 = pr.1 := by
      intro pr hpr
      unfold cssRepl
      rw [if_pos (hall pr hpr)]
    unfold cssRewriteText
    rw [cssReplace_id _ _ hall2]

/-- Witness for C9 on a stylesheet holding one fetchable image reference
and one `data:` reference: the only attempted download is the image's
resolution, and the `data:` occurrence is replaced by itself. -/
theorem css_data_uris_untouched_witness :
    ((extractRefs "p url(x.png) q url(data:zz) r").any (fun pr =>
        !strStarts pr.2 "data:"
          && decide (envC9.resolveIn "http://h/c.css" pr.2 = some "http://h/x.png"))) = true
    ∧ cssRepl envC9 [] "http://h/c.css" "/o/assets/c.css" "/o" "url(data:zz)" "data:zz"
        = "url(data:zz)" := by
  have h := css_data_uris_untouched envC9 "/o" "/o/assets" "http://h/c.css" []
    "p url(x.png) q url(data:zz) r"
  exact ⟨h.1 "http://h/x.png" (by decide),
    h.2.2.1 "/o/assets/c.css" "url(data:zz)" "data:zz" (by decide) (by decide)⟩

theorem exceptMapM_pure {α β : Type} (f : α → Except Unit β) (g : α → β) (l : List α)
    (h : ∀ x ∈ l, f x = .ok (g x)) : l.mapM f = .ok (l.map g) := by
  induction l with
  | nil => rfl
  | cons a t ih =>
    rw [List.mapM_cons, h a (List.mem_cons_self _ _),
      ih (fun x hx => h x (List.mem_cons_of_mem _ hx))]
    rfl

/-- Claim C8: the `srcset` rewrite refines its specification — split on
commas, trim, split each entry on whitespace, map the URL token through
the map (falling back to the original token when unmapped or mapped to a
falsy value), rejoin descriptors with single spaces and entries with
`", "` — provided every URL token resolves (an unresolvable token throws
in the source); and on the spec's own example the output is exactly
`"assets/a.png 1x, b.png 2x"`. -/
theorem srcset_roundtrip :
    (∀ (resolve : String → Option String) (m : List (String × String)) (s : String),
       ((splitChar ',' s).all (fun part =>
          match wsSplit (trimStr part) with
          | [] => true
          | u :: _ => (resolve u).isSome)) = true →
       srcsetRewriteE resolve m s = .ok (srcsetSpec resolve m s))
    ∧ srcsetRewriteE (fun t => some ("http://h/" ++ t)) [("http://h/a.png", "assets/a.png")]
        "a.png 1x, b.png 2x" = .ok "assets/a.png 1x, b.png 2x" := by
  constructor
  · intro resolve m s h
    rw [List.all_eq_true] at h
    unfold srcsetRewriteE srcsetSpec
    rw [exceptMapM_pure _ (fun part =>
      match wsSplit (trimStr part) with
      | [] => ""
      | u :: ds =>
        String.intercalate " "
          ((match resolve u with
            | none => u
            | some abs => (jsTruthyGet m abs).getD u) :: ds)) _ ?_]
    · rfl
    · intro part hpart
      have hp := h part hpart
      cases hw : wsSplit (trimStr part) with
      | nil => simp only [hw]; rfl
      | cons u ds =>
        rw [hw] at hp
        simp only at hp
        cases hr : resolve u with
        | none => rw [hr] at hp; exact absurd hp (by simp)
        | some abs => simp only [hw, hr]; rfl
  · rfl

/-- Witness for C8's general refinement at the spec's example inputs. -/
theorem srcset_roundtrip_witness :
    srcsetRewriteE (fun t => some ("http://h/" ++ t)) [("http://h/a.png", "assets/a.png")]
        "a.png 1x, b.png 2x"
      = .ok (srcsetSpec (fun t => some ("http://h/" ++ t))
          [("http://h/a.png", "assets/a.png")] "a.png 1x, b.png 2x") :=
  srcset_roundtrip.1 (fun t => some ("http://h/" ++ t)) [("http://h/a.png", "assets/a.png")]
    "a.png 1x, b.png 2x" (by decide)

theorem foldlM_except_pure {α β : Type} (f : β → α → Except Unit β) (g : β → α → β)
    (l : List α) (h : ∀ acc a, a ∈ l → f acc a = .ok (g acc a)) :
    ∀ acc, l.foldlM f acc = .ok (l.foldl g acc) := by
  induction l with
  | nil => intro acc; rfl
  | cons a t ih =>
    intro acc
    rw [List.foldlM_cons, h acc a (List.mem_cons_self _ _), List.foldl_cons]
    exact ih (fun acc2 a2 ha2 => h acc2 a2 (List.mem_cons_of_mem _ ha2)) (g acc a)

theorem discoverSrcset_pure (resolve : String → Option String) (v : String)
    (h : ((splitChar ',' v).all (fun part =>
       match wsSplit (trimStr part) with
       | [] => true
       | u :: _ => u = "" || (resolve u).isSome)) = true) :
    ∀ acc, discoverSrcset resolve acc v = .ok (discoverSrcsetP resolve acc v) := by
  rw [List.all_eq_true] at h
  intro acc
  unfold discoverSrcset discoverSrcsetP
  refine foldlM_except_pure _ _ _ ?_ acc
  intro acc2 part hpart
  have hp := h part hpart
  cases hw : wsSplit (trimStr part) with
  | nil => simp only [hw]; rfl
  | cons u ds =>
    rw [hw] at hp
    simp only at hp
    by_cases hu : u = ""
    · simp only [hw, if_pos hu]
      rfl
    · have hres : (resolve u).isSome = true := by
        simp only [Bool.or_eq_true] at hp
        rcases hp with h1 | h2
        · exact absurd (by simpa using h1) hu
        · exact h2
      obtain ⟨abs, habs⟩ := Option.isSome_iff_exists.mp hres
      simp only [hw, if_neg hu, habs]
      rfl

theorem discoverValue_pure (resolve : String → Option String) (acc : List String)
    (a v : String) (hns : a ≠ "srcset") :
    discoverValue resolve acc a v = .ok (discoverValueP resolve acc a v) := by
  unfold discoverValue discoverValueP
  rw [if_neg hns, if_neg hns]
  cases hr : resolve v with
  | none => rfl
  | some abs => rfl

theorem discover_ok (resolve : String → Option String) (doc : List Elem)
    (h : ∀ el ∈ doc, el.tag = "img" → srcsetOkB resolve el = true) :
    discover resolve doc = .ok (discoverP resolve doc) := by
  have hdec : ∀ q ∈ assetSelectors, q.2 = "srcset" → q.1 = "img" := by decide
  unfold discover discoverP
  refine foldlM_except_pure _ _ _ ?_ []
  intro acc p hp
  refine foldlM_except_pure _ _ _ ?_ acc
  intro acc2 el hel
  unfold discElStep
  by_cases htag : el.tag = p.1
  · rw [if_pos htag, if_pos htag]
    cases hv : getAttr el p.2 with
    | none => rfl
    | some v =>
      dsimp only
      by_cases hne : v = ""
      · rw [if_pos hne, if_pos hne]
        rfl
      · rw [if_neg hne, if_neg hne]
        by_cases hsrc : p.2 = "srcset"
        · have hpi : p.1 = "img" := hdec p hp hsrc
          have hok := h el hel (htag.trans hpi)
          unfold srcsetOkB at hok
          rw [← hsrc, hv] at hok
          simp only at hok
          unfold discoverValue discoverValueP
          rw [if_pos hsrc, if_pos hsrc]
          exact discoverSrcset_pure resolve v hok acc2
        · exact discoverValue_pure resolve acc2 p.2 v hsrc
  · rw [if_neg htag, if_neg htag]
    rfl

theorem mem_dedupAdd_self (acc : List String) (u : String) : u ∈ dedupAdd acc u := by
  unfold dedupAdd
  split
  · next h => exact h
  · exact List.mem_append_right _ (by simp)

theorem dedupAdd_sub (acc : List String) (w : String) : acc ⊆ dedupAdd acc w := by
  intro x hx
  unfold dedupAdd
  split
  · exact hx
  · exact List.mem_append_left _ hx

theorem foldl_sub {α : Type} (g : List String → α → List String)
    (hg : ∀ acc a, acc ⊆ g acc a) (l : List α) :
    ∀ acc, acc ⊆ l.foldl g acc := by
  induction l with
  | nil =>
    intro acc
    rw [List.foldl_nil]
    exact fun x hx => hx
  | cons a t ih =>
    intro acc
    rw [List.foldl_cons]
    exact fun x hx => ih (g acc a) (hg acc a hx)

theorem discoverSrcsetP_sub (resolve : String → Option String) (v : String)
    (acc : List String) : acc ⊆ discoverSrcsetP resolve acc v := by
  unfold discoverSrcsetP
  refine foldl_sub _ ?_ _ acc
  intro acc2 part
  dsimp only
  cases hw : wsSplit (trimStr part) with
  | nil => exact fun x hx => hx
  | cons u ds =>
    dsimp only
    by_cases hu : u = ""
    · rw [if_pos hu]
      exact fun x hx => hx
    · rw [if_neg hu]
      cases hr : resolve u with
      | none => exact fun x hx => hx
      | some abs => exact dedupAdd_sub acc2 abs

theorem discoverValueP_sub (resolve : String → Option String) (a v : String)
    (acc : List String) : acc ⊆ discoverValueP resolve acc a v := by
  unfold discoverValueP
  by_cases hns : a = "srcset"
  · rw [if_pos hns]
    exact discoverSrcsetP_sub resolve v acc
  · rw [if_neg hns]
    cases hr : resolve v with
    | none => exact fun x hx => hx
    | some abs => exact dedupAdd_sub acc abs

theorem discElStep_sub (resolve : String → Option String) (p : String × String)
    (acc : List String) (el : Elem) : acc ⊆ discElStep resolve p acc el := by
  unfold discElStep
  split
  · cases hv : getAttr el p.2 with
    | none => exact fun x hx => hx
    | some v =>
      dsimp only
      by_cases hne : v = ""
      · rw [if_pos hne]
        exact fun x hx => hx
      · rw [if_neg hne]
        exact discoverValueP_sub resolve p.2 v acc
  · exact fun x hx => hx

theorem discoverP_mem (resolve : String → Option String) (doc : List Elem)
    (p : String × String) (el : Elem) (v abs : String)
    (hp : p ∈ assetSelectors) (hel : el ∈ doc) (htag : el.tag = p.1)
    (hns : p.2 ≠ "srcset") (hv : getAttr el p.2 = some v) (hne : v ≠ "")
    (hres : resolve v = some abs) :
    abs ∈ discoverP resolve doc := by
  obtain ⟨s1, s2, hs⟩ := List.append_of_mem hp
  unfold discoverP
  rw [hs, List.foldl_append, List.foldl_cons]
  refine foldl_sub _ (fun acc2 p2 => foldl_sub _ (discElStep_sub resolve p2) doc acc2) s2 _ ?_
  obtain ⟨d1, d2, hd⟩ := List.append_of_mem hel
  rw [hd, List.foldl_append, List.foldl_cons]
  refine foldl_sub _ (discElStep_sub resolve p) d2 _ ?_
  unfold discElStep
  rw [if_pos htag, hv]
  dsimp only
  rw [if_neg hne]
  unfold discoverValueP
  rw [if_neg hns, hres]
  exact mem_dedupAdd_self _ abs

/-- Claim C6 (amended): when every srcset URL token of the document
parses, discovery returns normally, computing the total discovery result;
a reference in a single-valued attribute that fails to parse is skipped
per-reference — every other resolvable single-valued reference still ends
up in the discovered set.  (As frozen the claim fails: an unparseable
srcset token is resolved outside any try/catch and aborts the discovery
pass and the job, see the counterexample.) -/
theorem discovery_amended :
    (∀ (resolve : String → Option String) (doc : List Elem),
       (∀ el ∈ doc, el.tag = "img" → srcsetOkB resolve el = true) →
       discover resolve doc = .ok (discoverP resolve doc))
    ∧ (∀ (resolve : String → Option String) (doc : List Elem) (p : String × String)
         (el : Elem) (v abs : String),
       p ∈ assetSelectors → el ∈ doc → el.tag = p.1 → p.2 ≠ "srcset" →
       getAttr el p.2 = some v → v ≠ "" → resolve v = some abs →
       abs ∈ discoverP resolve doc) :=
  ⟨discover_ok, fun resolve doc p el v abs h1 h2 h3 h4 h5 h6 h7 =>
    discoverP_mem resolve doc p el v abs h1 h2 h3 h4 h5 h6 h7⟩

/-- Counterexample for C6 as frozen: a document whose first image has an
unparseable srcset token makes the whole discovery pass throw — the good
image that follows is never reached. -/
theorem discovery_aborts_on_srcset :
    discover resolveC6 docC6 = .error () := by
  rfl

/-- Witness for C6 (amended): a failing `link[href]` reference does not
stop the following image from being discovered. -/
theorem discovery_amended_witness :
    discover resolveW6 docW6 = .ok (discoverP resolveW6 docW6)
    ∧ "http://h/ok.png" ∈ discoverP resolveW6 docW6 :=
  ⟨discovery_amended.1 resolveW6 docW6 (by decide),
   discovery_amended.2 resolveW6 docW6 ("img", "src") ⟨"img", [("src", "ok.png")]⟩
     "ok.png" "http://h/ok.png" (by decide) (by decide) rfl (by decide) rfl (by decide) rfl⟩

/-- Claim C10: the manifest's `failedDownloads` counts only batch-phase
failures — two runs that agree on everything except the fetch behaviour of
URLs outside the discovered set (i.e. the assets nested inside CSS) report
the same `failedDownloads`, even when one run's nested fetches fail and
the other's succeed — while `assetsCount` is the size of the final map
produced after the CSS phase, so a nested asset that downloads
successfully is counted there. -/
theorem manifest_counts (env env2 : CloneEnv) (urlStr host : String) (doc : List Elem)
    (urls : List String)
    (hu : urlStr ≠ "") (hp : env.parseUrl urlStr = some host)
    (hp2 : env2.parseUrl urlStr = some host)
    (hmk : env.mkdirOk = true) (hmk2 : env2.mkdirOk = true)
    (hroot : env.fetchRoot = some doc) (hroot2 : env2.fetchRoot = some doc)
    (hres : env2.resolve = env.resolve) (hpn : env2.pathname = env.pathname)
    (hcwd : env2.cwd = env.cwd) (hnow : env2.now = env.now)
    (hdisc : discover env.resolve doc = .ok urls)
    (hfetch : ∀ u ∈ urls, env2.fetch u = env.fetch u) :
    cloneWebsite env urlStr = .ok (.manifest (cloneManifest env host urls))
    ∧ cloneWebsite env2 urlStr = .ok (.manifest (cloneManifest env2 host urls))
    ∧ (cloneManifest env2 host urls).failedDownloads
        = (cloneManifest env host urls).failedDownloads
    ∧ (cloneManifest env host urls).assetsCount = (pipelineMap env host urls).length
    ∧ pipelineMap env host urls
        = cssPhase env (outDirOf env host)
            (buildMap (outDirOf env host) (batchDownload env (assetsDirOf env host) urls)) := by
  have hdisc2 : discover env2.resolve doc = .ok urls := by
    rw [hres]
    exact hdisc
  have h1 : cloneWebsite env urlStr = .ok (.manifest (cloneManifest env host urls)) := by
    simp [cloneWebsite, hu, hp, hmk, hroot, hdisc]
  have h2 : cloneWebsite env2 urlStr = .ok (.manifest (cloneManifest env2 host urls)) := by
    simp [cloneWebsite, hu, hp2, hmk2, hroot2, hdisc2]
  have hdir : outDirOf env2 host = outDirOf env host := by
    unfold outDirOf
    rw [hcwd, hnow]
  have hadir : assetsDirOf env2 host = assetsDirOf env host := by
    unfold assetsDirOf
    rw [hdir]
  have hbatch : batchDownload env2 (assetsDirOf env2 host) urls
      = batchDownload env (assetsDirOf env host) urls := by
    rw [hadir, batchDownload_eq_map env2 (assetsDirOf env host) urls,
      batchDownload_eq_map env (assetsDirOf env host) urls]
    apply List.map_congr_left
    intro u hu2
    unfold downloadAsset
    rw [hfetch u hu2, hpn]
  have h3 : (cloneManifest env2 host urls).failedDownloads
      = (cloneManifest env host urls).failedDownloads := by
    unfold cloneManifest
    dsimp only
    rw [hbatch]
  exact ⟨h1, h2, h3, rfl, rfl⟩

/-- Witness for C10: a one-stylesheet job whose nested image fails to
fetch in one environment and succeeds in the other — `failedDownloads`
agrees (the nested failure is silently dropped), while `assetsCount` is 1
in the failing run and 2 in the succeeding run. -/
theorem manifest_counts_witness :
    (cloneManifest envW10b "h" ["http://h/s.css"]).failedDownloads
      = (cloneManifest envW10a "h" ["http://h/s.css"]).failedDownloads
    ∧ cloneWebsite envW10a "http://h/"
        = .ok (.manifest (cloneManifest envW10a "h" ["http://h/s.css"]))
    ∧ (cloneManifest envW10a "h" ["http://h/s.css"]).assetsCount = 1
    ∧ (cloneManifest envW10b "h" ["http://h/s.css"]).assetsCount = 2 := by
  have h := manifest_counts envW10a envW10b "http://h/" "h" docW10 ["http://h/s.css"]
    (by decide) rfl rfl rfl rfl rfl rfl rfl rfl rfl rfl rfl (by decide)
  exact ⟨h.2.2.1, h.1, by decide, by decide⟩

end Cloner
